import Mathlib

/-
Verification development for the Moving-Earth repository.

Shallow embedding of src/assets/js/CreditLink.js: the Particle physics
(update / explode), the text sampler of CreditLink.createParticles, and the
field-level state machine (handleClick, handleTouch, handleResize,
startExplosion, getTextBounds).

Modelling conventions:
 * JS numbers are modelled as real numbers; the sampler works on the integer
   pixel grid, so it uses naturals, and devicePixelRatio is a rational.
 * Math.random() results are injected as explicit parameters (a value in
   [0,1) per call site), making every operation a pure function.
 * `this.mouse.x` / `this.mouse.y` start as null; a null coordinate is an
   Option that is absent.  JS arithmetic coerces null to 0 (ToNumber(null) = 0),
   which the embedding renders as `Option.getD 0`.
 * `setTimeout(cb, d)` is modelled by appending the delay d to a list of
   pending timers carried in the field state.
 * `event.touches[0]` on an empty touch list is an out-of-bounds access
   (undefined, then a TypeError on .clientX); the total embedding of
   handleTouch therefore returns an Option, none in that case.
-/

/-- `this.explosionDuration = 1500` (CreditLink constructor). -/
def explosionDuration : ℝ := 1500

/-- `this.fadeOutDuration = 500` (CreditLink constructor). -/
def fadeOutDuration : ℝ := 500

/-- A 2D vector, used for `this.velocity` and `this.noise`. -/
structure Vec2 where
  x : ℝ
  y : ℝ

/-- The Particle class of CreditLink.js.  Field order follows the
constructor: position, size, base (rest) position, density, velocity,
alpha, noise amplitudes, noise offset. -/
structure Particle where
  x : ℝ
  y : ℝ
  size : ℝ
  baseX : ℝ
  baseY : ℝ
  density : ℝ
  velocity : Vec2
  alpha : ℝ
  noise : Vec2
  noiseOffset : ℝ

/-- The Particle constructor `new Particle(x, y)`.  The four Math.random()
draws (density, noise.x, noise.y, noiseOffset) are injected as parameters
rD, rNx, rNy, rOff, each representing a value in [0,1). -/
def Particle.init (x y rD rNx rNy rOff : ℝ) : Particle :=
  { x := x
    y := y
    size := 1.25
    baseX := x
    baseY := y
    density := rD * 10 + 1
    velocity := ⟨0, 0⟩
    alpha := 1
    noise := ⟨rNx * 0.5 - 0.25, rNy * 0.5 - 0.25⟩
    noiseOffset := rOff * 1000 }

/-- JS Math.atan2(y, x): the angle of the point (x, y), in (-π, π], with
atan2(0, 0) = 0.  This is exactly the complex argument of x + y i. -/
noncomputable def atan2 (y x : ℝ) : ℝ := Complex.arg ⟨x, y⟩

/-- Particle.prototype.update(mouseX, mouseY, currentTime, isExploding,
explosionStartTime, explosionDuration, fadeOutDuration).

The mouse coordinates may be null (the constructor's initial state), hence
Option ℝ; JS arithmetic turns null into 0, hence `Option.getD 0`. -/
noncomputable def Particle.update (p : Particle) (mouseX mouseY : Option ℝ)
    (currentTime : ℝ) (isExploding : Bool)
    (explosionStartTime explosionDuration fadeOutDuration : ℝ) : Particle :=
  if isExploding then
    -- this.x += this.velocity.x; this.y += this.velocity.y
    let p1 : Particle := { p with x := p.x + p.velocity.x, y := p.y + p.velocity.y }
    let elapsedTime := currentTime - explosionStartTime
    if elapsedTime > explosionDuration - fadeOutDuration then
      { p1 with alpha :=
          1 - (elapsedTime - (explosionDuration - fadeOutDuration)) / fadeOutDuration }
    else p1
  else
    let dx := mouseX.getD 0 - p.x
    let dy := mouseY.getD 0 - p.y
    let distance := Real.sqrt (dx * dx + dy * dy)
    let maxDistance : ℝ := 35
    if distance < maxDistance then
      let force := (maxDistance - distance) / maxDistance
      let angle := atan2 dy dx
      let noiseX := Real.sin (currentTime * 0.002 + p.noiseOffset) * p.noise.x
      let noiseY := Real.cos (currentTime * 0.002 + p.noiseOffset) * p.noise.y
      let vx := p.velocity.x + Real.cos angle * force * 0.1 + noiseX
      let vy := p.velocity.y + Real.sin angle * force * 0.1 + noiseY
      { p with x := p.x + vx, y := p.y + vy, velocity := ⟨vx * 0.9, vy * 0.9⟩ }
    else
      let returnForce : ℝ := 0.05
      let vx := p.velocity.x + (p.baseX - p.x) * returnForce
      let vy := p.velocity.y + (p.baseY - p.y) * returnForce
      { p with x := p.x + vx, y := p.y + vy, velocity := ⟨vx * 0.9, vy * 0.9⟩ }

/-- Particle.prototype.explode().  The two Math.random() draws (angle,
speed) are injected as r1, r2, each representing a value in [0,1). -/
noncomputable def Particle.explode (p : Particle) (r1 r2 : ℝ) : Particle :=
  let angle := r1 * Real.pi * 2
  let speed := r2 * 5 + 2
  { p with velocity := ⟨Real.cos angle * speed, Real.sin angle * speed⟩ }

/-- The index positions visited by `for (let v = 0; v < limit; v += step)`:
the multiples of step below limit, in increasing order. -/
def strided (limit step : ℕ) : List ℕ :=
  (List.range ((limit + step - 1) / step)).map (· * step)

/-- The sampling loop of CreditLink.createParticles: walk the canvas
row-major on a stride of `max 1 (floor (3 * devicePixelRatio))`, reading the
alpha channel `data.data[y*4*width + x*4 + 3]` of the rasterized text
(supplied as the external array dataArr), and emit the cell exactly when
that alpha exceeds 200. -/
def textSample (width height : ℕ) (dataArr : ℕ → ℕ) (dpr : ℚ) : List (ℕ × ℕ) :=
  let step := max 1 (Int.toNat ⌊3 * dpr⌋)
  (strided height step).flatMap (fun y =>
    ((strided width step).filter (fun x => 200 < dataArr (y * 4 * width + x * 4 + 3))).map
      (fun x => (x, y)))

/-- Return type of CreditLink.getTextBounds. -/
structure TextBounds where
  x : ℝ
  y : ℝ
  width : ℝ
  height : ℝ

/-- The CreditLink field state.  Presentation-only members (canvas context,
redirect URL string, credit text, cached mouse position, bound methods) are
omitted; `timers` records the delays of the setTimeout redirect timers
scheduled so far. -/
structure CreditLink where
  canvasWidth : ℕ
  canvasHeight : ℕ
  particles : List Particle
  isExploding : Bool
  explosionStartTime : ℝ
  timers : List ℝ

/-- CreditLink.prototype.getTextBounds().  window.innerWidth and the
external ctx.measureText width are parameters. -/
noncomputable def CreditLink.getTextBounds (s : CreditLink)
    (innerWidth textWidth : ℝ) : TextBounds :=
  let fontSize := min (innerWidth / 20) 28
  { x := (s.canvasWidth : ℝ) - textWidth - 20
    y := (s.canvasHeight : ℝ) - 20
    width := textWidth
    height := fontSize * 1.2 }

/-- CreditLink.prototype.startExplosion().  `now` is Date.now(); rnd
supplies the two Math.random() draws of particle i's explode() call.  The
setTimeout call appends one pending redirect timer. -/
noncomputable def CreditLink.startExplosion (s : CreditLink) (now : ℝ)
    (rnd : ℕ → ℝ × ℝ) : CreditLink :=
  { s with
    isExploding := true
    explosionStartTime := now
    particles := s.particles.mapIdx (fun i p => p.explode (rnd i).1 (rnd i).2)
    timers := s.timers ++ [explosionDuration] }

/-- The hit test of handleClick / handleTouch: the transformed point lies
inside the text bounding box. -/
noncomputable def CreditLink.activationHit (s : CreditLink)
    (innerWidth textWidth px py : ℝ) : Prop :=
  px ≥ (s.getTextBounds innerWidth textWidth).x ∧
  px ≤ (s.getTextBounds innerWidth textWidth).x + (s.getTextBounds innerWidth textWidth).width ∧
  py ≥ (s.getTextBounds innerWidth textWidth).y - (s.getTextBounds innerWidth textWidth).height ∧
  py ≤ (s.getTextBounds innerWidth textWidth).y

noncomputable instance (s : CreditLink) (innerWidth textWidth px py : ℝ) :
    Decidable (s.activationHit innerWidth textWidth px py) := by
  unfold CreditLink.activationHit
  exact inferInstance

/-- CreditLink.prototype.handleClick(event).  The canvas bounding rect and
the event's client coordinates are parameters; `now` and rnd feed
startExplosion. -/
noncomputable def CreditLink.handleClick (s : CreditLink)
    (innerWidth textWidth rectLeft rectTop rectW rectH clientX clientY now : ℝ)
    (rnd : ℕ → ℝ × ℝ) : CreditLink :=
  let scaleX := (s.canvasWidth : ℝ) / rectW
  let scaleY := (s.canvasHeight : ℝ) / rectH
  let clickX := (clientX - rectLeft) * scaleX
  let clickY := (clientY - rectTop) * scaleY
  if s.activationHit innerWidth textWidth clickX clickY then
    s.startExplosion now rnd
  else s

/-- CreditLink.prototype.handleTouch(event).  touches is the event's touch
list of client coordinates; `event.touches[0]` on an empty list is
undefined and reading `.clientX` from it throws, so the total embedding
returns none in that case. -/
noncomputable def CreditLink.handleTouch (s : CreditLink)
    (innerWidth textWidth rectLeft rectTop rectW rectH : ℝ)
    (touches : List (ℝ × ℝ)) (now : ℝ) (rnd : ℕ → ℝ × ℝ) : Option CreditLink :=
  match touches.head? with
  | none => none
  | some t =>
    let scaleX := (s.canvasWidth : ℝ) / rectW
    let scaleY := (s.canvasHeight : ℝ) / rectH
    let touchX := (t.1 - rectLeft) * scaleX
    let touchY := (t.2 - rectTop) * scaleY
    if s.activationHit innerWidth textWidth touchX touchY then
      some (s.startExplosion now rnd)
    else some s

/-- CreditLink.prototype.resizeCanvas(): canvas dimensions take the window
dimensions. -/
def CreditLink.resizeCanvas (s : CreditLink) (innerWidth innerHeight : ℕ) : CreditLink :=
  { s with canvasWidth := innerWidth, canvasHeight := innerHeight }

/-- CreditLink.prototype.createParticles().  The rasterized text (the
getImageData result) is the external dataArr; rnd supplies the four
Math.random() draws of particle i's constructor.  The particle collection
is discarded and rebuilt from the sample; no other state member is
touched. -/
noncomputable def CreditLink.createParticles (s : CreditLink) (dataArr : ℕ → ℕ)
    (dpr : ℚ) (rnd : ℕ → ℝ × ℝ × ℝ × ℝ) : CreditLink :=
  { s with
    particles :=
      (textSample s.canvasWidth s.canvasHeight dataArr dpr).mapIdx (fun i pt =>
        Particle.init (pt.1 : ℝ) (pt.2 : ℝ) (rnd i).1 (rnd i).2.1 (rnd i).2.2.1 (rnd i).2.2.2) }

/-- CreditLink.prototype.handleResize(): resizeCanvas then createParticles. -/
noncomputable def CreditLink.handleResize (s : CreditLink) (innerWidth innerHeight : ℕ)
    (dataArr : ℕ → ℕ) (dpr : ℚ) (rnd : ℕ → ℝ × ℝ × ℝ × ℝ) : CreditLink :=
  (s.resizeCanvas innerWidth innerHeight).createParticles dataArr dpr rnd

/-- A run of the animate() loop restricted to one particle while
isExploding stays true: each tick supplies the cached mouse position and
Date.now(), with the constructor's duration constants. -/
noncomputable def explosionRun (est : ℝ) (p : Particle)
    (ticks : List ((Option ℝ × Option ℝ) × ℝ)) : Particle :=
  ticks.foldl (fun q tk => q.update tk.1.1 tk.1.2 tk.2 true est explosionDuration fadeOutDuration) p

/-! ## Helper lemmas about the exploding branch of Particle.update -/

lemma update_exploding_alpha (q : Particle) (mx my : Option ℝ) (t est : ℝ) :
    (q.update mx my t true est explosionDuration fadeOutDuration).alpha =
      if 1000 < t - est then 1 - (t - est - 1000) / 500 else q.alpha := by
  simp only [Particle.update, explosionDuration, fadeOutDuration, if_true, gt_iff_lt]
  norm_num
  split <;> rfl

lemma update_baseX (p : Particle) (mx my : Option ℝ) (t : ℝ) (b : Bool) (est ed fd : ℝ) :
    (p.update mx my t b est ed fd).baseX = p.baseX := by
  unfold Particle.update
  split
  · dsimp only
    split <;> rfl
  · dsimp only
    split <;> rfl

lemma update_baseY (p : Particle) (mx my : Option ℝ) (t : ℝ) (b : Bool) (est ed fd : ℝ) :
    (p.update mx my t b est ed fd).baseY = p.baseY := by
  unfold Particle.update
  split
  · dsimp only
    split <;> rfl
  · dsimp only
    split <;> rfl

lemma explosionRun_cons (est : ℝ) (p : Particle) (tk : (Option ℝ × Option ℝ) × ℝ)
    (ticks : List ((Option ℝ × Option ℝ) × ℝ)) :
    explosionRun est p (tk :: ticks) =
      explosionRun est (p.update tk.1.1 tk.1.2 tk.2 true est explosionDuration fadeOutDuration)
        ticks := rfl

lemma explosionRun_append_single (est : ℝ) (p : Particle)
    (ticks : List ((Option ℝ × Option ℝ) × ℝ)) (tk : (Option ℝ × Option ℝ) × ℝ) :
    explosionRun est p (ticks ++ [tk]) =
      (explosionRun est p ticks).update tk.1.1 tk.1.2 tk.2 true est
        explosionDuration fadeOutDuration := by
  unfold explosionRun
  rw [List.foldl_append]
  rfl

lemma explosionRun_base (est : ℝ) (p : Particle) :
    ∀ ticks : List ((Option ℝ × Option ℝ) × ℝ),
      (explosionRun est p ticks).baseX = p.baseX ∧
      (explosionRun est p ticks).baseY = p.baseY := by
  intro ticks
  induction ticks generalizing p with
  | nil => exact ⟨rfl, rfl⟩
  | cons tk ticks ih =>
    rw [explosionRun_cons]
    refine ⟨((ih _).1).trans ?_, ((ih _).2).trans ?_⟩
    · exact update_baseX p tk.1.1 tk.1.2 tk.2 true est explosionDuration fadeOutDuration
    · exact update_baseY p tk.1.1 tk.1.2 tk.2 true est explosionDuration fadeOutDuration

lemma explosionRun_alpha_const (est : ℝ) :
    ∀ (ticks : List ((Option ℝ × Option ℝ) × ℝ)) (p : Particle), p.alpha = 1 →
      (∀ tk ∈ ticks, tk.2 - est ≤ 1000) → (explosionRun est p ticks).alpha = 1 := by
  intro ticks
  induction ticks with
  | nil => intro p hα _; simpa [explosionRun] using hα
  | cons tk ticks ih =>
    intro p hα hle
    rw [explosionRun_cons]
    apply ih
    · rw [update_exploding_alpha, if_neg (not_lt.mpr (hle tk (by simp)))]
      exact hα
    · intro u hu
      exact hle u (by simp [hu])

lemma explosionRun_alpha_shape (est : ℝ) (p : Particle) (hα : p.alpha = 1) :
    ∀ ticks : List ((Option ℝ × Option ℝ) × ℝ),
      (explosionRun est p ticks).alpha = 1 ∨
      ∃ tk ∈ ticks, 1000 < tk.2 - est ∧
        (explosionRun est p ticks).alpha = 1 - (tk.2 - est - 1000) / 500 := by
  intro ticks
  induction ticks using List.reverseRecOn with
  | nil => left; simpa [explosionRun] using hα
  | append_singleton l tk ih =>
    rw [explosionRun_append_single, update_exploding_alpha]
    by_cases h : 1000 < tk.2 - est
    · right
      exact ⟨tk, by simp, h, by rw [if_pos h]⟩
    · rw [if_neg h]
      rcases ih with h1 | ⟨tk', htk', hlt, heq⟩
      · left; exact h1
      · right; exact ⟨tk', by simp [htk'], hlt, heq⟩

/-- C3: for any run of exploding updates with explosionDuration 1500 and
fadeOutDuration 500, starting from alpha 1: while every elapsed time stays
≤ 1000 the alpha stays 1; an update at elapsed > 1000 sets alpha to
1 - (elapsed - 1000)/500; in particular an update at elapsed 900 leaves
alpha at 1 and an update at elapsed 1500 computes alpha 0. -/
theorem explosion_fade_timeline (p : Particle) (est : ℝ) (hα : p.alpha = 1) :
    (∀ ticks : List ((Option ℝ × Option ℝ) × ℝ),
        (∀ tk ∈ ticks, tk.2 - est ≤ 1000) → (explosionRun est p ticks).alpha = 1) ∧
    (∀ (q : Particle) (mx my : Option ℝ) (t : ℝ), 1000 < t - est →
        (q.update mx my t true est explosionDuration fadeOutDuration).alpha =
          1 - (t - est - 1000) / 500) ∧
    (p.update none none (est + 900) true est explosionDuration fadeOutDuration).alpha = 1 ∧
    (∀ (q : Particle) (mx my : Option ℝ),
        (q.update mx my (est + 1500) true est explosionDuration fadeOutDuration).alpha = 0) := by
  refine ⟨fun ticks h => explosionRun_alpha_const est ticks p hα h, ?_, ?_, ?_⟩
  · intro q mx my t ht
    rw [update_exploding_alpha, if_pos ht]
  · rw [update_exploding_alpha, if_neg (by norm_num)]
    exact hα
  · intro q mx my
    rw [update_exploding_alpha, if_pos (by norm_num)]
    norm_num

/-- Witness for C3: a concrete particle, a concrete tick sequence staying
below 1000ms, and the concrete alpha-0 tick at 1500ms. -/
theorem explosion_fade_timeline_witness :
    (Particle.init 10 20 0 0 0 0).alpha = 1 ∧
    (explosionRun 0 (Particle.init 10 20 0 0 0 0)
        [((none, none), 400), ((none, none), 900)]).alpha = 1 ∧
    ((Particle.init 10 20 0 0 0 0).update none none (0 + 1500) true 0
        explosionDuration fadeOutDuration).alpha = 0 := by
  have h := explosion_fade_timeline (Particle.init 10 20 0 0 0 0) 0 rfl
  refine ⟨rfl, h.1 _ ?_, h.2.2.2 (Particle.init 10 20 0 0 0 0) none none⟩
  intro tk htk
  rcases List.mem_cons.mp htk with rfl | htk
  · norm_num
  rcases List.mem_cons.mp htk with rfl | htk
  · norm_num
  · exact absurd htk (List.not_mem_nil _)

/-- C4: over any run of exploding updates, the base (rest) position is
never modified, and with nondecreasing tick times, starting from alpha 1,
each further update call leaves alpha no larger than before. -/
theorem exploding_run_invariants (p : Particle) (est : ℝ) (hα : p.alpha = 1) :
    (∀ ticks : List ((Option ℝ × Option ℝ) × ℝ),
        (explosionRun est p ticks).baseX = p.baseX ∧
        (explosionRun est p ticks).baseY = p.baseY) ∧
    (∀ (ticks : List ((Option ℝ × Option ℝ) × ℝ)) (tk : (Option ℝ × Option ℝ) × ℝ),
        List.Sorted (· ≤ ·) ((ticks ++ [tk]).map (fun u => u.2)) →
        (explosionRun est p (ticks ++ [tk])).alpha ≤ (explosionRun est p ticks).alpha) := by
  refine ⟨explosionRun_base est p, ?_⟩
  intro ticks tk hsorted
  rw [explosionRun_append_single, update_exploding_alpha]
  by_cases h : 1000 < tk.2 - est
  · rw [if_pos h]
    have hmax : ∀ u ∈ ticks, u.2 ≤ tk.2 := by
      rw [List.map_append] at hsorted
      have h2 := (List.pairwise_append.mp hsorted).2.2
      intro u hu
      exact h2 u.2 (List.mem_map_of_mem _ hu) tk.2 (by simp)
    rcases explosionRun_alpha_shape est p hα ticks with h1 | ⟨tk', htk', hlt, heq⟩
    · rw [h1]
      linarith
    · rw [heq]
      have := hmax tk' htk'
      linarith
  · rw [if_neg h]

/-- Witness for C4: concrete particle, concrete sorted two-tick run. -/
theorem exploding_run_invariants_witness :
    (Particle.init 5 6 0 0 0 0).alpha = 1 ∧
    (explosionRun 0 (Particle.init 5 6 0 0 0 0) [((none, none), 1100)]).baseX =
      (Particle.init 5 6 0 0 0 0).baseX ∧
    (explosionRun 0 (Particle.init 5 6 0 0 0 0)
        ([((none, none), 1100)] ++ [((none, none), 1200)])).alpha ≤
      (explosionRun 0 (Particle.init 5 6 0 0 0 0) [((none, none), 1100)]).alpha := by
  have h := exploding_run_invariants (Particle.init 5 6 0 0 0 0) 0 rfl
  refine ⟨rfl, (h.1 _).1, h.2 _ _ ?_⟩
  simp [List.sorted_cons]
  norm_num

/-! ## atan2 as the complex argument -/

lemma cos_atan2 (y x : ℝ) (h : ¬(x = 0 ∧ y = 0)) :
    Real.cos (atan2 y x) = x / Real.sqrt (x * x + y * y) := by
  have hz : (⟨x, y⟩ : ℂ) ≠ 0 := by
    intro hzero
    exact h ⟨congrArg Complex.re hzero, congrArg Complex.im hzero⟩
  rw [atan2, Complex.cos_arg hz, Complex.abs_apply, Complex.normSq_mk]

lemma sin_atan2 (y x : ℝ) :
    Real.sin (atan2 y x) = y / Real.sqrt (x * x + y * y) := by
  rw [atan2, Complex.sin_arg, Complex.abs_apply, Complex.normSq_mk]

/-- C7: explode with random draws r1, r2 in [0,1) gives the velocity the
magnitude 5*r2 + 2 (a value in [2,7)) and the direction angle 2*pi*r1 (a
value in [0, 2*pi)), and modifies no other particle member. -/
theorem explode_contract (p : Particle) (r1 r2 : ℝ)
    (h1 : 0 ≤ r1) (h2 : r1 < 1) (h3 : 0 ≤ r2) (h4 : r2 < 1) :
    Real.sqrt ((p.explode r1 r2).velocity.x * (p.explode r1 r2).velocity.x +
        (p.explode r1 r2).velocity.y * (p.explode r1 r2).velocity.y) = 5 * r2 + 2 ∧
    2 ≤ 5 * r2 + 2 ∧ 5 * r2 + 2 < 7 ∧
    (p.explode r1 r2).velocity.x = Real.cos (2 * Real.pi * r1) * (5 * r2 + 2) ∧
    (p.explode r1 r2).velocity.y = Real.sin (2 * Real.pi * r1) * (5 * r2 + 2) ∧
    0 ≤ 2 * Real.pi * r1 ∧ 2 * Real.pi * r1 < 2 * Real.pi ∧
    (p.explode r1 r2).x = p.x ∧ (p.explode r1 r2).y = p.y ∧
    (p.explode r1 r2).baseX = p.baseX ∧ (p.explode r1 r2).baseY = p.baseY ∧
    (p.explode r1 r2).alpha = p.alpha ∧ (p.explode r1 r2).size = p.size ∧
    (p.explode r1 r2).density = p.density ∧ (p.explode r1 r2).noise = p.noise ∧
    (p.explode r1 r2).noiseOffset = p.noiseOffset := by
  have hs : (0 : ℝ) ≤ r2 * 5 + 2 := by linarith
  have hangle : r1 * Real.pi * 2 = 2 * Real.pi * r1 := by ring
  have hpi := Real.pi_pos
  refine ⟨?_, by linarith, by linarith, ?_, ?_, ?_, ?_, rfl, rfl, rfl, rfl, rfl, rfl, rfl, rfl, rfl⟩
  · show Real.sqrt (Real.cos (r1 * Real.pi * 2) * (r2 * 5 + 2) *
        (Real.cos (r1 * Real.pi * 2) * (r2 * 5 + 2)) +
        Real.sin (r1 * Real.pi * 2) * (r2 * 5 + 2) *
        (Real.sin (r1 * Real.pi * 2) * (r2 * 5 + 2))) = 5 * r2 + 2
    have hkey : Real.cos (r1 * Real.pi * 2) * (r2 * 5 + 2) *
        (Real.cos (r1 * Real.pi * 2) * (r2 * 5 + 2)) +
        Real.sin (r1 * Real.pi * 2) * (r2 * 5 + 2) *
        (Real.sin (r1 * Real.pi * 2) * (r2 * 5 + 2)) = (r2 * 5 + 2) ^ 2 := by
      have hpy := Real.sin_sq_add_cos_sq (r1 * Real.pi * 2)
      nlinarith [hpy]
    rw [hkey, Real.sqrt_sq hs]
    ring
  · show Real.cos (r1 * Real.pi * 2) * (r2 * 5 + 2) = Real.cos (2 * Real.pi * r1) * (5 * r2 + 2)
    rw [hangle]
    ring
  · show Real.sin (r1 * Real.pi * 2) * (r2 * 5 + 2) = Real.sin (2 * Real.pi * r1) * (5 * r2 + 2)
    rw [hangle]
    ring
  · positivity
  · nlinarith

/-- Witness for C7 at the random draws r1 = 0, r2 = 0. -/
theorem explode_contract_witness :
    ((0 : ℝ) ≤ 0 ∧ (0 : ℝ) < 1) ∧
    Real.sqrt (((Particle.init 1 2 0 0 0 0).explode 0 0).velocity.x *
        ((Particle.init 1 2 0 0 0 0).explode 0 0).velocity.x +
        ((Particle.init 1 2 0 0 0 0).explode 0 0).velocity.y *
        ((Particle.init 1 2 0 0 0 0).explode 0 0).velocity.y) = 5 * 0 + 2 := by
  have h := explode_contract (Particle.init 1 2 0 0 0 0) 0 0 le_rfl (by norm_num) le_rfl
    (by norm_num)
  exact ⟨⟨le_rfl, by norm_num⟩, h.1⟩

/-- C5: with zero per-axis noise amplitude and the pointer at distance d
from the particle, 0 < d < 35, one idle (non-exploding) update adds to the
velocity the vector ((35 - d)/35) * 0.1 * u, u the unit vector from the
particle toward the pointer (then integrates the position and damps the
velocity by 0.9): the near-range force attracts. -/
theorem near_force_attracts (p : Particle) (mx my now est ed fd d : ℝ)
    (hnx : p.noise.x = 0) (hny : p.noise.y = 0)
    (hd : d = Real.sqrt ((mx - p.x) * (mx - p.x) + (my - p.y) * (my - p.y)))
    (hd0 : 0 < d) (hd35 : d < 35) :
    (p.update (some mx) (some my) now false est ed fd).velocity =
      ⟨(p.velocity.x + (35 - d) / 35 * 0.1 * ((mx - p.x) / d)) * 0.9,
       (p.velocity.y + (35 - d) / 35 * 0.1 * ((my - p.y) / d)) * 0.9⟩ ∧
    (p.update (some mx) (some my) now false est ed fd).x =
      p.x + (p.velocity.x + (35 - d) / 35 * 0.1 * ((mx - p.x) / d)) ∧
    (p.update (some mx) (some my) now false est ed fd).y =
      p.y + (p.velocity.y + (35 - d) / 35 * 0.1 * ((my - p.y) / d)) := by
  have hzero : ¬(mx - p.x = 0 ∧ my - p.y = 0) := by
    rintro ⟨hx0, hy0⟩
    rw [hx0, hy0] at hd
    simp [Real.sqrt_zero] at hd
    exact absurd hd (by linarith)
  have hcos : Real.cos (atan2 (my - p.y) (mx - p.x)) = (mx - p.x) / d := by
    rw [cos_atan2 _ _ hzero, hd]
  have hsin : Real.sin (atan2 (my - p.y) (mx - p.x)) = (my - p.y) / d := by
    rw [sin_atan2, hd]
  unfold Particle.update
  dsimp only [Option.getD]
  rw [← hd, if_pos hd35, hcos, hsin, hnx, hny]
  refine ⟨?_, ?_, ?_⟩
  · show Vec2.mk _ _ = Vec2.mk _ _
    congr 1 <;> ring
  · show p.x + _ = _
    ring
  · show p.y + _ = _
    ring

/-- Witness for C5: particle at the origin with zeroed noise amplitudes,
pointer at (3,4), distance 5. -/
theorem near_force_attracts_witness :
    (Particle.init 0 0 0 0.5 0.5 0).noise.x = 0 ∧
    (Particle.init 0 0 0 0.5 0.5 0).noise.y = 0 ∧
    (5 : ℝ) = Real.sqrt ((3 - (Particle.init 0 0 0 0.5 0.5 0).x) *
        (3 - (Particle.init 0 0 0 0.5 0.5 0).x) +
        (4 - (Particle.init 0 0 0 0.5 0.5 0).y) *
        (4 - (Particle.init 0 0 0 0.5 0.5 0).y)) ∧
    ((Particle.init 0 0 0 0.5 0.5 0).update (some 3) (some 4) 0 false 0 1500 500).velocity =
      ⟨((Particle.init 0 0 0 0.5 0.5 0).velocity.x +
          (35 - 5) / 35 * 0.1 * ((3 - (Particle.init 0 0 0 0.5 0.5 0).x) / 5)) * 0.9,
       ((Particle.init 0 0 0 0.5 0.5 0).velocity.y +
          (35 - 5) / 35 * 0.1 * ((4 - (Particle.init 0 0 0 0.5 0.5 0).y) / 5)) * 0.9⟩ := by
  have hnx : (Particle.init 0 0 0 0.5 0.5 0).noise.x = 0 := by
    norm_num [Particle.init]
  have hny : (Particle.init 0 0 0 0.5 0.5 0).noise.y = 0 := by
    norm_num [Particle.init]
  have hd : (5 : ℝ) = Real.sqrt ((3 - (Particle.init 0 0 0 0.5 0.5 0).x) *
      (3 - (Particle.init 0 0 0 0.5 0.5 0).x) +
      (4 - (Particle.init 0 0 0 0.5 0.5 0).y) *
      (4 - (Particle.init 0 0 0 0.5 0.5 0).y)) := by
    have hx : (Particle.init 0 0 0 0.5 0.5 0).x = 0 := rfl
    have hy : (Particle.init 0 0 0 0.5 0.5 0).y = 0 := rfl
    rw [hx, hy, show ((3:ℝ) - 0) * (3 - 0) + (4 - 0) * (4 - 0) = 5 ^ 2 by norm_num,
      Real.sqrt_sq (by norm_num)]
  exact ⟨hnx, hny, hd,
    (near_force_attracts (Particle.init 0 0 0 0.5 0.5 0) 3 4 0 0 1500 500 5 hnx hny hd
      (by norm_num) (by norm_num)).1⟩

/-- C6 (amended): an update with the pointer absent behaves exactly as if
the pointer were at the origin (0,0) — JS coerces the null coordinates to
0 — so a particle at distance at least 35 from the origin receives
exactly the far branch (spring force 0.05 toward base, damping 0.9), while
a particle closer to the origin does not. -/
theorem update_null_pointer (p : Particle) (now est ed fd : ℝ) :
    p.update none none now false est ed fd = p.update (some 0) (some 0) now false est ed fd ∧
    (35 ≤ Real.sqrt (p.x * p.x + p.y * p.y) →
      p.update none none now false est ed fd =
        { p with
            x := p.x + (p.velocity.x + (p.baseX - p.x) * 0.05)
            y := p.y + (p.velocity.y + (p.baseY - p.y) * 0.05)
            velocity := ⟨(p.velocity.x + (p.baseX - p.x) * 0.05) * 0.9,
                         (p.velocity.y + (p.baseY - p.y) * 0.05) * 0.9⟩ }) := by
  constructor
  · rfl
  · intro h35
    have hdist : Real.sqrt ((0 - p.x) * (0 - p.x) + (0 - p.y) * (0 - p.y)) =
        Real.sqrt (p.x * p.x + p.y * p.y) := by
      ring_nf
    unfold Particle.update
    dsimp only [Option.getD]
    rw [hdist, if_neg (not_lt.mpr h35)]
    rfl

/-- Witness for C6 at a particle on the 35px circle around the origin. -/
theorem update_null_pointer_witness :
    35 ≤ Real.sqrt ((Particle.init 35 0 0 0 0 0).x * (Particle.init 35 0 0 0 0 0).x +
        (Particle.init 35 0 0 0 0 0).y * (Particle.init 35 0 0 0 0 0).y) ∧
    (Particle.init 35 0 0 0 0 0).update none none 0 false 0 1500 500 =
      { Particle.init 35 0 0 0 0 0 with
          x := (Particle.init 35 0 0 0 0 0).x +
            ((Particle.init 35 0 0 0 0 0).velocity.x +
              ((Particle.init 35 0 0 0 0 0).baseX - (Particle.init 35 0 0 0 0 0).x) * 0.05)
          y := (Particle.init 35 0 0 0 0 0).y +
            ((Particle.init 35 0 0 0 0 0).velocity.y +
              ((Particle.init 35 0 0 0 0 0).baseY - (Particle.init 35 0 0 0 0 0).y) * 0.05)
          velocity := ⟨((Particle.init 35 0 0 0 0 0).velocity.x +
              ((Particle.init 35 0 0 0 0 0).baseX - (Particle.init 35 0 0 0 0 0).x) * 0.05) * 0.9,
            ((Particle.init 35 0 0 0 0 0).velocity.y +
              ((Particle.init 35 0 0 0 0 0).baseY - (Particle.init 35 0 0 0 0 0).y) * 0.05) * 0.9⟩ } := by
  have h35 : 35 ≤ Real.sqrt ((Particle.init 35 0 0 0 0 0).x * (Particle.init 35 0 0 0 0 0).x +
      (Particle.init 35 0 0 0 0 0).y * (Particle.init 35 0 0 0 0 0).y) := by
    have hx : (Particle.init 35 0 0 0 0 0).x = 35 := rfl
    have hy : (Particle.init 35 0 0 0 0 0).y = 0 := rfl
    rw [hx, hy, show (35:ℝ) * 35 + 0 * 0 = 35 ^ 2 by norm_num, Real.sqrt_sq (by norm_num)]
  exact ⟨h35, (update_null_pointer (Particle.init 35 0 0 0 0 0) 0 0 1500 500).2 h35⟩

/-- C6 counterexample: a particle resting at (3,4) — within 35 of the
origin — is moved by a pointer-absent update, although the far branch
(the claim) would leave it exactly in place. -/
theorem update_null_pointer_cex :
    ((Particle.mk 3 4 1.25 3 4 1 ⟨0, 0⟩ 1 ⟨0, 0⟩ 0).update none none 0 false 0 1500 500).x ≠
      (Particle.mk 3 4 1.25 3 4 1 ⟨0, 0⟩ 1 ⟨0, 0⟩ 0).x + ((Particle.mk 3 4 1.25 3 4 1 ⟨0, 0⟩ 1 ⟨0, 0⟩ 0).velocity.x +
        ((Particle.mk 3 4 1.25 3 4 1 ⟨0, 0⟩ 1 ⟨0, 0⟩ 0).baseX -
          (Particle.mk 3 4 1.25 3 4 1 ⟨0, 0⟩ 1 ⟨0, 0⟩ 0).x) * 0.05) := by
  have h5 : Real.sqrt ((0 - (3:ℝ)) * (0 - 3) + (0 - 4) * (0 - 4)) = 5 := by
    rw [show (0 - (3:ℝ)) * (0 - 3) + (0 - 4) * (0 - 4) = 5 ^ 2 by norm_num,
      Real.sqrt_sq (by norm_num)]
  have hcos : Real.cos (atan2 (0 - (4:ℝ)) (0 - 3)) = (0 - 3) / 5 := by
    rw [cos_atan2 _ _ (by norm_num), h5]
  have hlt : Real.sqrt ((0 - (3:ℝ)) * (0 - 3) + (0 - 4) * (0 - 4)) < 35 := by
    rw [h5]
    norm_num
  unfold Particle.update
  dsimp only [Option.getD]
  rw [if_pos hlt, hcos]
  rw [h5]
  norm_num

/-- A concrete field state that is already exploding: canvas 1000 x 800,
explosion started at time 0, one redirect timer already pending. -/
def sExploding : CreditLink :=
  { canvasWidth := 1000
    canvasHeight := 800
    particles := []
    isExploding := true
    explosionStartTime := 0
    timers := [explosionDuration] }

/-- C1 counterexample: with the field already exploding, an in-bounds
click at canvas point (800,775) at time 7 is not a no-op — it resets
explosionStartTime and schedules a second redirect timer. -/
theorem handleClick_reentry_cex :
    sExploding.isExploding = true ∧
    (sExploding.handleClick 1000 200 0 0 1000 800 800 775 7 (fun _ => (0, 0))).explosionStartTime ≠
      sExploding.explosionStartTime ∧
    (sExploding.handleClick 1000 200 0 0 1000 800 800 775 7 (fun _ => (0, 0))).timers.length =
      sExploding.timers.length + 1 := by
  have hit : sExploding.activationHit 1000 200
      ((800 - 0) * ((sExploding.canvasWidth : ℝ) / 1000))
      ((775 - 0) * ((sExploding.canvasHeight : ℝ) / 800)) := by
    unfold CreditLink.activationHit CreditLink.getTextBounds sExploding
    norm_num [min_def]
  refine ⟨rfl, ?_, ?_⟩
  · unfold CreditLink.handleClick
    rw [if_pos hit]
    unfold CreditLink.startExplosion sExploding
    norm_num
  · unfold CreditLink.handleClick
    rw [if_pos hit]
    rfl

/-- C1 (amended): while the field is exploding, an activation outside the
text bounds is still a no-op, but an in-bounds activation re-runs
startExplosion — explosionStartTime is reset to the current time, every
particle's velocity is re-randomized by explode, and a second redirect
timer is appended. -/
theorem handleClick_while_exploding (s : CreditLink)
    (iw tw rl rt rectW rectH cx cy now : ℝ) (rnd : ℕ → ℝ × ℝ)
    (_hs : s.isExploding = true) :
    (¬ s.activationHit iw tw ((cx - rl) * ((s.canvasWidth : ℝ) / rectW))
        ((cy - rt) * ((s.canvasHeight : ℝ) / rectH)) →
      s.handleClick iw tw rl rt rectW rectH cx cy now rnd = s) ∧
    (s.activationHit iw tw ((cx - rl) * ((s.canvasWidth : ℝ) / rectW))
        ((cy - rt) * ((s.canvasHeight : ℝ) / rectH)) →
      s.handleClick iw tw rl rt rectW rectH cx cy now rnd =
        { s with
            isExploding := true
            explosionStartTime := now
            particles := s.particles.mapIdx (fun i p => p.explode (rnd i).1 (rnd i).2)
            timers := s.timers ++ [explosionDuration] }) := by
  constructor
  · intro hmiss
    unfold CreditLink.handleClick
    rw [if_neg hmiss]
  · intro hhit
    unfold CreditLink.handleClick
    rw [if_pos hhit]
    rfl

/-- Witness for C1's amended theorem: the in-bounds branch at the concrete
exploding state; explosionStartTime becomes 9 and the timer list doubles. -/
theorem handleClick_while_exploding_witness :
    sExploding.isExploding = true ∧
    sExploding.handleClick 1000 200 0 0 1000 800 800 775 9 (fun _ => (0, 0)) =
      { sExploding with
          isExploding := true
          explosionStartTime := 9
          particles := sExploding.particles.mapIdx
            (fun i p => p.explode ((fun _ => ((0:ℝ), (0:ℝ))) i).1 ((fun _ => ((0:ℝ), (0:ℝ))) i).2)
          timers := sExploding.timers ++ [explosionDuration] } := by
  have hit : sExploding.activationHit 1000 200
      ((800 - 0) * ((sExploding.canvasWidth : ℝ) / 1000))
      ((775 - 0) * ((sExploding.canvasHeight : ℝ) / 800)) := by
    unfold CreditLink.activationHit CreditLink.getTextBounds sExploding
    norm_num [min_def]
  exact ⟨rfl,
    (handleClick_while_exploding sExploding 1000 200 0 0 1000 800 800 775 9
      (fun _ => (0, 0)) rfl).2 hit⟩

/-- C2 counterexample: a resize of a field that is mid-explosion does NOT
reset the exploding flag to false — the rebuilt field is still exploding. -/
theorem handleResize_keeps_exploding_cex :
    (CreditLink.mk 1000 800 [] true 3 [explosionDuration]).isExploding = true ∧
    ((CreditLink.mk 1000 800 [] true 3 [explosionDuration]).handleResize 500 400 (fun _ => 0) 1
        (fun _ => (0, 0, 0, 0))).isExploding ≠ false :=
  ⟨rfl, fun h => Bool.noConfusion h⟩

/-- C2 (amended): handleResize re-applies the canvas dimensions and
discards and rebuilds the particle collection from a fresh sample, but the
exploding flag, explosionStartTime and the pending redirect timers are all
carried over unchanged — the flag is NOT reset to false. -/
theorem handleResize_rebuilds (s : CreditLink) (iw ih : ℕ) (dataArr : ℕ → ℕ) (dpr : ℚ)
    (rnd : ℕ → ℝ × ℝ × ℝ × ℝ) :
    (s.handleResize iw ih dataArr dpr rnd).canvasWidth = iw ∧
    (s.handleResize iw ih dataArr dpr rnd).canvasHeight = ih ∧
    (s.handleResize iw ih dataArr dpr rnd).particles =
      (textSample iw ih dataArr dpr).mapIdx (fun i pt =>
        Particle.init (pt.1 : ℝ) (pt.2 : ℝ) (rnd i).1 (rnd i).2.1 (rnd i).2.2.1 (rnd i).2.2.2) ∧
    (s.handleResize iw ih dataArr dpr rnd).isExploding = s.isExploding ∧
    (s.handleResize iw ih dataArr dpr rnd).explosionStartTime = s.explosionStartTime ∧
    (s.handleResize iw ih dataArr dpr rnd).timers = s.timers :=
  ⟨rfl, rfl, rfl, rfl, rfl, rfl⟩

/-- C8: the concrete bounding-box scenario — canvas 1000 x 800, text width
200, 20px margins give box x in [780,980], bottom y = 780, height = the
code's fontSize (min(1000/20, 28) = 28) times 1.2 = 33.6; a click at
(800,775) from the non-exploding state triggers the explosion and a click
at (50,50) leaves the flag false. -/
theorem bounds_click_scenario (s : CreditLink) (h1 : s.canvasWidth = 1000)
    (h2 : s.canvasHeight = 800) (h3 : s.isExploding = false)
    (now : ℝ) (rnd : ℕ → ℝ × ℝ) :
    (s.getTextBounds 1000 200).x = 780 ∧
    (s.getTextBounds 1000 200).x + (s.getTextBounds 1000 200).width = 980 ∧
    (s.getTextBounds 1000 200).y = 780 ∧
    (s.getTextBounds 1000 200).height = min ((1000 : ℝ) / 20) 28 * 1.2 ∧
    (s.getTextBounds 1000 200).height = 33.6 ∧
    (s.handleClick 1000 200 0 0 1000 800 800 775 now rnd).isExploding = true ∧
    (s.handleClick 1000 200 0 0 1000 800 50 50 now rnd).isExploding = false := by
  have hit : s.activationHit 1000 200 ((800 - 0) * ((s.canvasWidth : ℝ) / 1000))
      ((775 - 0) * ((s.canvasHeight : ℝ) / 800)) := by
    unfold CreditLink.activationHit CreditLink.getTextBounds
    rw [h1, h2]
    norm_num [min_def]
  have hmiss : ¬ s.activationHit 1000 200 ((50 - 0) * ((s.canvasWidth : ℝ) / 1000))
      ((50 - 0) * ((s.canvasHeight : ℝ) / 800)) := by
    unfold CreditLink.activationHit CreditLink.getTextBounds
    rw [h1, h2]
    intro hc
    have hx := hc.1
    norm_num at hx
  refine ⟨?_, ?_, ?_, ?_, ?_, ?_, ?_⟩
  · unfold CreditLink.getTextBounds
    rw [h1]
    norm_num
  · unfold CreditLink.getTextBounds
    rw [h1]
    norm_num
  · unfold CreditLink.getTextBounds
    rw [h2]
    norm_num
  · rfl
  · unfold CreditLink.getTextBounds
    norm_num [min_def]
  · unfold CreditLink.handleClick
    rw [if_pos hit]
    rfl
  · unfold CreditLink.handleClick
    rw [if_neg hmiss]
    exact h3

/-- Witness for C8 at a fully concrete non-exploding field state. -/
theorem bounds_click_scenario_witness :
    (CreditLink.mk 1000 800 [] false 0 []).isExploding = false ∧
    ((CreditLink.mk 1000 800 [] false 0 []).handleClick 1000 200 0 0 1000 800 800 775 0
        (fun _ => (0, 0))).isExploding = true ∧
    ((CreditLink.mk 1000 800 [] false 0 []).handleClick 1000 200 0 0 1000 800 50 50 0
        (fun _ => (0, 0))).isExploding = false := by
  have h := bounds_click_scenario (CreditLink.mk 1000 800 [] false 0 []) rfl rfl rfl 0
    (fun _ => (0, 0))
  exact ⟨rfl, h.2.2.2.2.2.1, h.2.2.2.2.2.2⟩

/-- C10: a touch-activation whose touches list is empty (a normal touchend
event) reads touches[0], which is out of bounds; the total embedding
yields none — the bounds test is never reached and no explosion can start
from such an event. -/
theorem handleTouch_empty_touches (s : CreditLink)
    (iw tw rl rt rectW rectH now : ℝ) (rnd : ℕ → ℝ × ℝ) :
    s.handleTouch iw tw rl rt rectW rectH [] now rnd = none := rfl

/-! ## Sampler lemmas -/

lemma mem_strided {limit step : ℕ} (hs : 0 < step) (v : ℕ) :
    v ∈ strided limit step ↔ step ∣ v ∧ v < limit := by
  unfold strided
  simp only [List.mem_map, List.mem_range]
  constructor
  · rintro ⟨k, hk, rfl⟩
    have h2 : (k + 1) * step ≤ limit + step - 1 := (Nat.le_div_iff_mul_le hs).mp hk
    have he : (k + 1) * step = k * step + step := by ring
    rw [he] at h2
    refine ⟨dvd_mul_left step k, ?_⟩
    generalize k * step = m at h2 ⊢
    omega
  · rintro ⟨⟨k, rfl⟩, hv⟩
    refine ⟨k, ?_, Nat.mul_comm k step⟩
    have h4 : step * k + step ≤ limit + step - 1 := by
      generalize step * k = m at hv ⊢
      omega
    have he : (k + 1) * step = step * k + step := by ring
    have h5 : (k + 1) * step ≤ limit + step - 1 := by rw [he]; exact h4
    exact (Nat.le_div_iff_mul_le hs).mpr h5

lemma flatMap_congr_on {α β : Type} (l : List α) (f g : α → List β)
    (h : ∀ a ∈ l, f a = g a) : l.flatMap f = l.flatMap g := by
  induction l with
  | nil => rfl
  | cons a l ih =>
    rw [List.flatMap_cons, List.flatMap_cons, h a (by simp),
      ih (fun b hb => h b (by simp [hb]))]

/-- C9: sampling is deterministic and order-stable — two rasterizations
that agree on every in-canvas pixel give identical ordered sample lists —
and a cell (x, y) is emitted exactly when it lies on the stride grid
(stride = max(1, floor(3 * devicePixelRatio))), is inside the canvas, and
its alpha channel exceeds 200. -/
theorem textSample_contract (w h : ℕ) (a1 a2 : ℕ → ℕ) (dpr : ℚ)
    (hagree : ∀ x y, x < w → y < h →
      a1 (y * 4 * w + x * 4 + 3) = a2 (y * 4 * w + x * 4 + 3)) :
    textSample w h a1 dpr = textSample w h a2 dpr ∧
    (∀ x y, (x, y) ∈ textSample w h a1 dpr ↔
      (max 1 (Int.toNat ⌊3 * dpr⌋) ∣ x ∧ max 1 (Int.toNat ⌊3 * dpr⌋) ∣ y ∧
        x < w ∧ y < h ∧ 200 < a1 (y * 4 * w + x * 4 + 3))) := by
  have hstep : 0 < max 1 (Int.toNat ⌊3 * dpr⌋) := lt_of_lt_of_le zero_lt_one (le_max_left _ _)
  constructor
  · unfold textSample
    apply flatMap_congr_on
    intro y hy
    have hyh : y < h := ((mem_strided hstep y).mp hy).2
    congr 1
    apply List.filter_congr
    intro x hx
    have hxw : x < w := ((mem_strided hstep x).mp hx).2
    rw [hagree x y hxw hyh]
  · intro x y
    unfold textSample
    simp only [List.mem_flatMap, List.mem_map, List.mem_filter, Prod.mk.injEq,
      decide_eq_true_eq]
    constructor
    · rintro ⟨y', hy', x', ⟨hx', ha⟩, hxx, hyy⟩
      obtain ⟨hdx, hxw⟩ := (mem_strided hstep x').mp hx'
      obtain ⟨hdy, hyh⟩ := (mem_strided hstep y').mp hy'
      rw [← hxx, ← hyy]
      exact ⟨hdx, hdy, hxw, hyh, ha⟩
    · rintro ⟨hdx, hdy, hxw, hyh, ha⟩
      exact ⟨y, (mem_strided hstep y).mpr ⟨hdy, hyh⟩,
        x, ⟨(mem_strided hstep x).mpr ⟨hdx, hxw⟩, ha⟩, rfl, rfl⟩

/-- Witness for C9: a concrete 10 x 5 canvas whose rasterization lights
only flat index 3 (the alpha byte of pixel (0,0)); the two runs agree and
the characterization puts exactly (0,0) in the sample. -/
theorem textSample_contract_witness :
    (∀ x y : ℕ, x < 10 → y < 5 →
      (fun i => if i = 3 then 255 else 0) (y * 4 * 10 + x * 4 + 3) =
        (fun i => if i = 3 then 255 else 0) (y * 4 * 10 + x * 4 + 3)) ∧
    textSample 10 5 (fun i => if i = 3 then 255 else 0) 1 =
      textSample 10 5 (fun i => if i = 3 then 255 else 0) 1 ∧
    (0, 0) ∈ textSample 10 5 (fun i => if i = 3 then 255 else 0) 1 := by
  have h := textSample_contract 10 5 (fun i => if i = 3 then 255 else 0)
    (fun i => if i = 3 then 255 else 0) 1 (fun _ _ _ _ => rfl)
  exact ⟨fun _ _ _ _ => rfl, h.1,
    (h.2 0 0).mpr ⟨by decide, by decide, by decide, by decide, by decide⟩⟩
